import Mathlib

/-!
Shallow embedding of the arp-scan-rs scan engine (src/network.rs, src/args.rs,
src/vendor.rs, src/main.rs) together with theorems settling the frozen claims.
Machine integers are modelled as `Nat`; fallible arithmetic (unsigned underflow,
division by zero, narrowing casts) is modelled with `Except`.
-/

namespace ArpScan

/-- IPv4 addresses are modelled as natural numbers (below 2^32 in practice). -/
abbrev IpAddr := Nat

/-- Model of ipnetwork's `Ipv4Network`: a base address and a prefix length
(at most 32). -/
structure Ipv4Network where
  base : IpAddr
  prefixLen : Nat
deriving DecidableEq, Repr

/-- Number of addresses in the network: `2 ^ (32 - prefix length)`. -/
def networkSize (n : Ipv4Network) : Nat := 2 ^ (32 - n.prefixLen)

/-- The network address: the base address with its host bits cleared. -/
def networkBase (n : Ipv4Network) : Nat := n.base / networkSize n * networkSize n

/-- Model of `Ipv4Network::iter()`: every address from the network address up
to the broadcast address, in increasing order. -/
def addressList (n : Ipv4Network) : List IpAddr :=
  (List.range (networkSize n)).map (fun k => networkBase n + k)

/-- Model of `NetworkIterator` (src/network.rs:248-253): the optional current
sub-iterator is the list of addresses it has not yet yielded, `networks` holds
the CIDRs not yet started, and `random_pool` is the shuffled pool. -/
structure NetworkIterator where
  current_iterator : Option (List IpAddr)
  networks : List Ipv4Network
  is_random : Bool
  random_pool : List IpAddr
deriving DecidableEq, Repr

/-- Model of `NetworkIterator::new` (src/network.rs:257-274). The shuffle
performed by `rand` is abstracted as the function `shuffleNetworks`; theorems
assume only that it permutes its input. -/
def NetworkIterator.new (shuffleNetworks : List Ipv4Network → List Ipv4Network)
    (networks_ref : List Ipv4Network) (is_random : Bool) : NetworkIterator :=
  { current_iterator := none
    networks := if is_random then shuffleNetworks networks_ref else networks_ref
    is_random := is_random
    random_pool := [] }

/-- Model of `NetworkIterator::has_no_items_left` (src/network.rs:281-283). -/
def NetworkIterator.has_no_items_left (s : NetworkIterator) : Bool :=
  s.current_iterator.isNone && s.networks.isEmpty && s.random_pool.isEmpty

/-- Model of `NetworkIterator::fill_random_pool` (src/network.rs:285-299):
drain up to 1000 addresses from the current sub-iterator into the pool, then
shuffle the whole pool (`sh` abstracts the rand shuffle). In the source the
current iterator is unwrapped; that call site is only reached with a present
iterator, so the `none` branch is unreachable there. -/
def NetworkIterator.fill_random_pool (sh : List IpAddr → List IpAddr)
    (s : NetworkIterator) : NetworkIterator :=
  match s.current_iterator with
  | none => s
  | some it =>
    { s with
      current_iterator := some (it.drop 1000)
      random_pool := sh (s.random_pool ++ it.take 1000) }

/-- Model of `NetworkIterator::select_new_iterator` (src/network.rs:301-304):
`networks.remove(0)` becomes the current sub-iterator. The source would panic
on an empty vector; all call sites guard against that. -/
def NetworkIterator.select_new_iterator (s : NetworkIterator) : NetworkIterator :=
  match s.networks with
  | [] => s
  | n :: rest => { s with current_iterator := some (addressList n), networks := rest }

/-- Model of `NetworkIterator::pop_next_iterator_address` (src/network.rs:306-309). -/
def NetworkIterator.pop_next_iterator_address (s : NetworkIterator) :
    Option IpAddr × NetworkIterator :=
  match s.current_iterator with
  | none => (none, s)
  | some it => (it.head?, { s with current_iterator := some (it.drop 1) })

/-- Model of `self.random_pool.pop()` inside `next` (src/network.rs:332):
`Vec::pop` removes and returns the last element. -/
def NetworkIterator.pop_random_pool (s : NetworkIterator) :
    Option IpAddr × NetworkIterator :=
  (s.random_pool.getLast?, { s with random_pool := s.random_pool.dropLast })

/-- The first conditional of `next` (src/network.rs:323-325): select a new
sub-iterator when none is active and CIDRs remain. -/
def NetworkIterator.phase0 (s : NetworkIterator) : NetworkIterator :=
  if s.current_iterator.isNone && !s.networks.isEmpty
    then s.select_new_iterator else s

/-- The first two conditionals of `next` (src/network.rs:323-329): after the
selection step, in random mode refill the pool when it is empty. -/
def NetworkIterator.phase1 (sh : List IpAddr → List IpAddr) (s : NetworkIterator) :
    NetworkIterator :=
  if (s.phase0).is_random && (s.phase0).random_pool.isEmpty
    then (s.phase0).fill_random_pool sh else s.phase0

/-- The final conditional of `next` (src/network.rs:336-341): when the pop
produced nothing and CIDRs remain, advance to the next CIDR and pop from its
sub-iterator directly. -/
def NetworkIterator.postPop (r : Option IpAddr × NetworkIterator) :
    Option IpAddr × NetworkIterator :=
  if r.1.isNone && !r.2.networks.isEmpty then
    (r.2.select_new_iterator).pop_next_iterator_address
  else r

/-- Model of `Iterator::next` for `NetworkIterator` (src/network.rs:317-342),
returning the yielded address and the successor state. -/
def NetworkIterator.next (sh : List IpAddr → List IpAddr) (s : NetworkIterator) :
    Option IpAddr × NetworkIterator :=
  if s.has_no_items_left then (none, s)
  else
    NetworkIterator.postPop
      (if (s.phase1 sh).is_random then (s.phase1 sh).pop_random_pool
       else (s.phase1 sh).pop_next_iterator_address)

/-- Run the iterator, collecting yielded addresses until it returns `none` or
the fuel runs out; `sh k` is the shuffle used by the `k`-th call, modelling a
fresh `thread_rng` shuffle at each refill. -/
def NetworkIterator.run (sh : Nat → List IpAddr → List IpAddr) (k fuel : Nat)
    (s : NetworkIterator) : List IpAddr :=
  match fuel with
  | 0 => []
  | fuel + 1 =>
    match s.next (sh k) with
    | (none, _) => []
    | (some ip, s') => ip :: NetworkIterator.run sh (k + 1) fuel s'

/-- The addresses still pending in an iterator state: the pool, the remainder
of the current sub-iterator, and the addresses of the not-yet-started CIDRs. -/
def NetworkIterator.remainingList (s : NetworkIterator) : List IpAddr :=
  s.random_pool ++ s.current_iterator.getD [] ++ (s.networks.map addressList).flatten

/-- The pending addresses of a state, as a multiset. -/
def NetworkIterator.remainingMS (s : NetworkIterator) : Multiset IpAddr :=
  ↑s.random_pool + ↑(s.current_iterator.getD []) +
    ↑((s.networks.map addressList).flatten)

/-- Reachable-state invariant: outside random mode the pool is never filled. -/
def NetworkIterator.wfPool (s : NetworkIterator) : Prop :=
  s.is_random = false → s.random_pool = []

/-- Model of `ScanTiming` (src/args.rs:188-191). -/
inductive ScanTiming where
  | Interval (ms : Nat)
  | Bandwidth (bits : Nat)
deriving DecidableEq, Repr

/-- Model of `ProfileType` (src/args.rs:181-186). -/
inductive ProfileType where
  | Default
  | Fast
  | Stealth
  | Chaos
deriving DecidableEq, Repr

/-- Model of pnet's `MacAddr`: six octets. -/
structure MacAddr where
  a : Nat
  b : Nat
  c : Nat
  d : Nat
  e : Nat
  f : Nat
deriving DecidableEq, Repr

/-- Model of `MacAddr::broadcast()`: FF:FF:FF:FF:FF:FF. -/
def MacAddr.broadcast : MacAddr := ⟨255, 255, 255, 255, 255, 255⟩

/-- Model of `ScanOptions` (src/args.rs:193-214), restricted to the fields the
claims under verification depend on. Parsed numeric fields are `Nat`. -/
structure ScanOptions where
  network_range : Option (List Ipv4Network)
  timeout_ms : Nat
  resolve_hostname : Bool
  source_mac : Option MacAddr
  destination_mac : Option MacAddr
  vlan_id : Option Nat
  retry_count : Nat
  scan_timing : ScanTiming
  randomize_targets : Bool
  hw_type : Option Nat
  hw_addr : Option Nat
  proto_type : Option Nat
  proto_addr : Option Nat
  arp_operation : Option Nat
deriving DecidableEq, Repr

/-- Model of `ScanOptions::has_vlan` (src/args.rs:543-546). -/
def ScanOptions.has_vlan (o : ScanOptions) : Bool := o.vlan_id.isSome

/-- Model of `ScanEstimation` (src/network.rs:37-42). -/
structure ScanEstimation where
  interval_ms : Nat
  duration_ms : Nat
  request_size : Nat
  bandwidth : Nat
deriving DecidableEq, Repr

/-- Runtime arithmetic failures of the Rust source: division by zero panics,
unsigned subtraction underflow panics (debug) or poisons the later `u64`
conversion (release), and a failed `try_into().unwrap()` panics. -/
inductive ArithError where
  | divByZero
  | underflow
  | overflow
deriving DecidableEq, Repr

/-- Rust integer division, which panics when the divisor is zero. -/
def checkedDiv (a b : Nat) : Except ArithError Nat :=
  if b = 0 then .error .divByZero else .ok (a / b)

/-- Rust unsigned subtraction, which underflows when the result would be
negative. -/
def checkedSub (a b : Nat) : Except ArithError Nat :=
  if a < b then .error .underflow else .ok (a - b)

/-- Rust `u128 → u64` conversion via `try_into().unwrap()`. -/
def u64OfU128 (a : Nat) : Except ArithError Nat :=
  if a < 2 ^ 64 then .ok a else .error .overflow

/-- Model of `compute_scan_estimation` (src/network.rs:113-165). The constants
42/46 are the Ethernet frame sizes, 3 is `avg_arp_request_ms` and 500 is
`avg_resolve_ms`. The `usize → u128` cast of `retry_count` never fails. -/
def compute_scan_estimation (host_count : Nat) (o : ScanOptions) :
    Except ArithError ScanEstimation :=
  let timeout := o.timeout_ms
  let packet_size := if o.has_vlan then 46 else 42
  let retry_count := o.retry_count
  let request_size := host_count * packet_size
  match o.scan_timing with
  | .Bandwidth bandwidth =>
    (checkedDiv (request_size * 1000) bandwidth).bind fun request_phase_ms =>
      (checkedDiv request_phase_ms retry_count).bind fun q1 =>
        (checkedDiv q1 host_count).bind fun q2 =>
          (checkedSub q2 3).bind fun interval128 =>
            (u64OfU128 interval128).map fun interval_ms =>
              { interval_ms := interval_ms
                duration_ms := request_phase_ms + timeout + 500
                request_size := request_size
                bandwidth := bandwidth }
  | .Interval interval =>
    let request_phase_ms := host_count * (3 + interval) * retry_count
    (checkedDiv (request_size * 1000) request_phase_ms).map fun bandwidth =>
      { interval_ms := interval
        duration_ms := request_phase_ms + timeout + 500
        request_size := request_size
        bandwidth := bandwidth }

/-- Big-endian encoding of a 16-bit value into two bytes. -/
def u16be (v : Nat) : List Nat := [v / 256 % 256, v % 256]

/-- The six octets of a MAC address, in wire order. -/
def macBytes (m : MacAddr) : List Nat := [m.a, m.b, m.c, m.d, m.e, m.f]

/-- Big-endian encoding of an IPv4 address into four bytes. -/
def ipBytes (ip : IpAddr) : List Nat :=
  [ip / 2 ^ 24 % 256, ip / 2 ^ 16 % 256, ip / 2 ^ 8 % 256, ip % 256]

/-- The 28-byte ARP payload built by `send_arp_request` (src/network.rs:204-218):
hardware type, protocol type, address lengths, operation, then sender and
target hardware/protocol addresses, with the source defaults 1 (Ethernet),
0x0800 (IPv4), 6, 4 and 1 (Request). -/
def arpPayloadBytes (o : ScanOptions) (source_mac target_mac : MacAddr)
    (source_ip target_ip : IpAddr) : List Nat :=
  u16be (o.hw_type.getD 1) ++ u16be (o.proto_type.getD 0x0800) ++
    [o.hw_addr.getD 6] ++ [o.proto_addr.getD 4] ++
    u16be (o.arp_operation.getD 1) ++
    macBytes source_mac ++ ipBytes source_ip ++ macBytes target_mac ++ ipBytes target_ip

/-- The two TCI bytes written by pnet's `MutableVlanPacket` setters
(src/network.rs:227-229): PCP = 1 (`VLAN_QOS_DEFAULT`) in the top three bits,
DEI = 0, and the low 12 bits of the VLAN id. -/
def vlanTciBytes (vid : Nat) : List Nat := [32 + vid / 256 % 16, vid % 256]

/-- Model of `send_arp_request` (src/network.rs:172-241), returning the bytes
of the frame handed to the datalink sender. The field setters tile the zeroed
buffer exactly, so the frame is the concatenation of its fields: destination
MAC, source MAC, then either ethertype 0x0806 and the ARP payload (42 bytes)
or ethertype 0x8100, the VLAN tag with inner ethertype 0x0806, and the ARP
payload (46 bytes). -/
def send_arp_request (o : ScanOptions) (interface_mac : MacAddr)
    (source_ip target_ip : IpAddr) : List Nat :=
  let target_mac := o.destination_mac.getD MacAddr.broadcast
  let source_mac := o.source_mac.getD interface_mac
  let arp := arpPayloadBytes o source_mac target_mac source_ip target_ip
  match o.vlan_id with
  | some vid =>
    macBytes target_mac ++ macBytes source_mac ++ u16be 0x8100 ++
      vlanTciBytes vid ++ u16be 0x0806 ++ arp
  | none =>
    macBytes target_mac ++ macBytes source_mac ++ u16be 0x0806 ++ arp

/-- One read delivered to the receiver loop: either a datalink read timeout or
a successfully read frame. -/
inductive RxEvent where
  | timeout
  | frame (bytes : List Nat)
deriving DecidableEq, Repr

/-- Receiver-loop state: the two counters and the accumulator map
(association list keyed by sender IPv4, most recent entry first). -/
structure RxState where
  packet_count : Nat
  arp_count : Nat
  discover_map : List (IpAddr × MacAddr)
deriving DecidableEq, Repr

/-- `HashMap::insert` keyed by IPv4: the new binding replaces any earlier
binding of the same address. -/
def insertTarget (ip : IpAddr) (mac : MacAddr) (m : List (IpAddr × MacAddr)) :
    List (IpAddr × MacAddr) :=
  (ip, mac) :: m.filter (fun p => p.1 ≠ ip)

/-- Ethertype of a frame: bytes 12 and 13, big endian. -/
def frameEthertype (bytes : List Nat) : Nat :=
  bytes.getD 12 0 * 256 + bytes.getD 13 0

/-- Whether `ArpPacket::new(&buffer[14..])` succeeds: the slice after the
14-byte Ethernet header must hold at least the 28 ARP bytes. -/
def arpPayloadParses (bytes : List Nat) : Bool := 28 ≤ bytes.length - 14

/-- Sender hardware address of an ARP frame: bytes 22..28 (offset 8 in the
ARP payload). -/
def senderHwAddr (bytes : List Nat) : MacAddr :=
  ⟨bytes.getD 22 0, bytes.getD 23 0, bytes.getD 24 0,
   bytes.getD 25 0, bytes.getD 26 0, bytes.getD 27 0⟩

/-- Sender protocol address of an ARP frame: bytes 28..32 (offset 14 in the
ARP payload), as one number. -/
def senderProtoAddr (bytes : List Nat) : IpAddr :=
  bytes.getD 28 0 * 2 ^ 24 + bytes.getD 29 0 * 2 ^ 16 +
    bytes.getD 30 0 * 2 ^ 8 + bytes.getD 31 0

/-- One iteration of the receiver loop (src/network.rs:381-433): a timeout
continues; a read frame bumps `packet_count`; a frame shorter than the 14-byte
Ethernet header fails `EthernetPacket::new` and continues; a non-ARP ethertype
continues; otherwise `arp_count` is bumped and, when the ARP payload parses,
the sender addresses are inserted into the accumulator map. -/
def receive_step (s : RxState) (e : RxEvent) : RxState :=
  match e with
  | .timeout => s
  | .frame bytes =>
    let s := { s with packet_count := s.packet_count + 1 }
    if bytes.length < 14 then s
    else if frameEthertype bytes ≠ 0x0806 then s
    else
      let s := { s with arp_count := s.arp_count + 1 }
      if arpPayloadParses bytes then
        { s with discover_map :=
            insertTarget (senderProtoAddr bytes) (senderHwAddr bytes) s.discover_map }
      else s

/-- The receiver loop run on a finite trace of reads, from the initial state
(src/network.rs:375-379: counters zero, empty map). -/
def receive_arp_responses (events : List RxEvent) : RxState :=
  events.foldl receive_step { packet_count := 0, arp_count := 0, discover_map := [] }

/-- Uppercase hexadecimal digit for a value below 16. -/
def hexDigit (n : Nat) : Char :=
  if n < 10 then Char.ofNat (48 + n) else Char.ofNat (55 + n)

/-- The Rust format `{:02X}` applied to one octet: exactly two uppercase hex
digits with zero padding. -/
def hex2 (v : Nat) : String := String.mk [hexDigit (v / 16 % 16), hexDigit (v % 16)]

/-- The OUI key computed by `search_by_mac` (src/vendor.rs:49):
`format!("{:02X}{:02X}{:02X}", mac.0, mac.1, mac.2)`. -/
def vendor_oui (m : MacAddr) : String := hex2 m.a ++ hex2 m.b ++ hex2 m.c

/-- Model of `Vendor::search_by_mac` (src/vendor.rs:41-75) on a loaded
database. The CSV reader is modelled as the list of rows, each a list of
fields; `Reader::from_reader` runs with headers on, so `records()` yields the
rows after the first. A row matches when its field of index 1
(`record.get(1).unwrap_or("")`) equals the OUI key; the result is the matching
row's field of index 2 (`record.get(2).unwrap_or("(no vendor)")`). -/
def search_by_mac (rows : List (List String)) (m : MacAddr) : Option String :=
  ((rows.drop 1).find? (fun r => r.getD 1 "" == vendor_oui m)).map
    (fun r => r.getD 2 "(no vendor)")

/-- Model of `ScanOptions::compute_scan_timing` (src/args.rs:272-292):
a given bandwidth flag wins, then a given interval flag, then the profile
defaults `REQUEST_MS_INTERVAL = 10` (doubled for Stealth, zero for Fast). -/
def compute_scan_timing (bandwidth_flag interval_flag : Option Nat)
    (p : ProfileType) : ScanTiming :=
  match bandwidth_flag, interval_flag with
  | some bits, none => .Bandwidth bits
  | none, some ms => .Interval ms
  | _, _ =>
    match p with
    | .Stealth => .Interval (10 * 2)
    | .Fast => .Interval 0
    | _ => .Interval 10

/-- Timeout selection in `ScanOptions::new` (src/args.rs:329-338):
`TIMEOUT_MS_FAST = 800` for the Fast profile, else `TIMEOUT_MS_DEFAULT = 2000`,
unless the timeout flag is given. -/
def timeout_of (timeout_flag : Option Nat) (p : ProfileType) : Nat :=
  match timeout_flag with
  | some t => t
  | none => match p with
    | .Fast => 800
    | _ => 2000

/-- Retry-count selection in `ScanOptions::new` (src/args.rs:399-414):
`HOST_RETRY_DEFAULT = 1`, doubled for the Chaos profile, unless the retry flag
is given. -/
def retry_count_of (retry_flag : Option Nat) (p : ProfileType) : Nat :=
  match retry_flag with
  | some r => r
  | none => match p with
    | .Chaos => 1 * 2
    | _ => 1

/-- Hostname-resolution selection in `ScanOptions::new` (src/args.rs:341):
disabled by the numeric flag or the Stealth profile. -/
def resolve_hostname_of (numeric_flag : Bool) (p : ProfileType) : Bool :=
  !numeric_flag && !(match p with | .Stealth => true | _ => false)

/-- Randomization selection in `ScanOptions::new` (src/args.rs:435):
the random flag, or the Stealth or Chaos profile. -/
def randomize_targets_of (random_flag : Bool) (p : ProfileType) : Bool :=
  random_flag || (match p with | .Stealth => true | .Chaos => true | _ => false)

/-- The per-pass target list of the sender loop (src/main.rs:163-171): the
addresses of `ip_network` — the first IP network of the selected interface
(src/main.rs:74-84) — collected afresh, shuffled when randomization is on. -/
def sender_pass_targets (sh : List IpAddr → List IpAddr) (o : ScanOptions)
    (ip_network : Ipv4Network) : List IpAddr :=
  if o.randomize_targets then sh (addressList ip_network) else addressList ip_network

/-- All addresses emitted by the sender loop (src/main.rs:153-184) when no
interrupt arrives: one pass per retry, each pass freshly collected and
independently shuffled (`sh k` is the shuffle of pass `k`); one ARP request is
sent per address. -/
def sender_emissions (sh : Nat → List IpAddr → List IpAddr) (o : ScanOptions)
    (ip_network : Ipv4Network) : List IpAddr :=
  ((List.range o.retry_count).map
    (fun k => sender_pass_targets (sh k) o ip_network)).flatten

/-- Specification-side definition, following the words of the claims: the
concatenation of the addresses of all CIDRs configured in
`ScanOptions.network_range`. -/
def specNetworkRangeUnion (o : ScanOptions) : List IpAddr :=
  ((o.network_range.getD []).map addressList).flatten

/-- Hex digits of a number, most significant first, by repeated division;
the fuel argument is structural and suffices whenever it reaches the digit
count. -/
def natHexAux : Nat → Nat → List Char
  | 0, _ => []
  | _ + 1, 0 => []
  | fuel + 1, n => natHexAux fuel (n / 16) ++ [hexDigit (n % 16)]

/-- Specification-side definition: the minimal uppercase hexadecimal digit
string of a number (empty for zero). -/
def natHexDigits (n : Nat) : List Char := natHexAux n n

/-- Specification-side definition, following the words of the claims: one
octet printed with `%02X` — its hex digits, zero padded on the left to width
two. -/
def specHex2 (v : Nat) : String :=
  String.mk (List.replicate (2 - (natHexDigits v).length) '0' ++ natHexDigits v)

/-- Specification-side definition: the OUI key — the MAC's first three octets
each formatted `%02X`, concatenated into six uppercase hex characters. -/
def specOuiKey (m : MacAddr) : String := specHex2 m.a ++ specHex2 m.b ++ specHex2 m.c

/-- Specification-side definition, following the words of the claims: with
the header row skipped, return the vendor-name column (index 2) of the first
record whose OUI-key column (index 1) matches the key, or `none` when no
record matches. -/
def specSearchByMac (rows : List (List String)) (m : MacAddr) : Option String :=
  ((rows.drop 1).find? (fun r => r.getD 1 "" == specOuiKey m)).map
    (fun r => r.getD 2 "(no vendor)")

/-- PCP field of a two-byte 802.1Q TCI: top three bits of the first byte. -/
def tciPcp (tci : List Nat) : Nat := tci.getD 0 0 / 32

/-- DEI field of a two-byte 802.1Q TCI: bit 4 of the first byte. -/
def tciDei (tci : List Nat) : Nat := tci.getD 0 0 / 16 % 2

/-- VID field of a two-byte 802.1Q TCI: the low 12 bits. -/
def tciVid (tci : List Nat) : Nat := tci.getD 0 0 % 16 * 256 + tci.getD 1 0

/-- The concatenated target list over a CIDR list, in configuration order. -/
def allTargets (networks : List Ipv4Network) : List IpAddr :=
  (networks.map addressList).flatten

/-- Run a fresh `NetworkIterator` to exhaustion: the fuel equals the total
address count, which the run theorems show is always enough. -/
def iterate_all (sh : Nat → List IpAddr → List IpAddr)
    (tau : List Ipv4Network → List Ipv4Network) (networks : List Ipv4Network)
    (is_random : Bool) : List IpAddr :=
  NetworkIterator.run sh 0 (allTargets networks).length
    (NetworkIterator.new tau networks is_random)

/-- A concrete `ScanOptions` with every flag-controlled field at its Default
profile value, used to build the concrete inputs of witnesses and
counterexamples. -/
def baseOptions : ScanOptions :=
  { network_range := none
    timeout_ms := 2000
    resolve_hostname := true
    source_mac := none
    destination_mac := none
    vlan_id := none
    retry_count := 1
    scan_timing := .Interval 10
    randomize_targets := false
    hw_type := none
    hw_addr := none
    proto_type := none
    proto_addr := none
    arp_operation := none }

/-- Options of the spec's bandwidth scenario: 336000 bits per second, one
retry, no VLAN. -/
def bandwidthOptions336 : ScanOptions :=
  { baseOptions with scan_timing := .Bandwidth 336000 }

/-- Options with the legitimate flag `--retry 0`. -/
def retry0Options : ScanOptions := { baseOptions with retry_count := 0 }

/-- Options carrying a configured network range of the single CIDR
192.168.1.5/32. -/
def rangeOptions : ScanOptions :=
  { baseOptions with network_range := some [⟨0xC0A80105, 32⟩] }

/-- Options requesting the out-of-range VLAN id 4096 (u16, but above the
12-bit VID field). -/
def vlanOptions4096 : ScanOptions := { baseOptions with vlan_id := some 4096 }

/-- An interface whose first IP network is 10.0.0.1/32. -/
def ifaceNetwork : Ipv4Network := ⟨0x0A000001, 32⟩

/-- A 14-byte frame with ARP ethertype and no ARP payload at all. -/
def shortArpFrame : List Nat := [0, 0, 0, 0, 0, 0, 0, 0, 0, 0, 0, 0, 8, 6]

/-- A random-mode iterator over the two host CIDRs 5/32 and 9/32, as in the
source's `should_iterate_with_random` test shape. -/
def iterTwo : NetworkIterator := NetworkIterator.new id [⟨5, 32⟩, ⟨9, 32⟩] true

/-- A sample OUI database in the IEEE CSV shape: header row, then records
with the registry, the assignment (OUI key) and the organization name. -/
def sampleOuiDb : List (List String) :=
  [["Registry", "Assignment", "Organization Name"],
   ["MA-L", "002272", "American Micro-Fuel Device Corp."],
   ["MA-L", "405582", "Nokia"]]

/-- A function that permutes its input sends only the empty list to the
empty list. -/
theorem eq_nil_of_shuffle_nil (sh : List IpAddr → List IpAddr)
    (hsh : ∀ l, (sh l).Perm l) (l : List IpAddr) (h : sh l = []) : l = [] := by
  have hp := hsh l
  rw [h] at hp
  exact hp.symm.eq_nil

/-- Every CIDR enumerates at least one address. -/
theorem addressList_ne_nil (n : Ipv4Network) : addressList n ≠ [] := by
  simp only [addressList, ne_eq, List.map_eq_nil_iff, List.range_eq_nil, networkSize]
  exact (pow_pos (by norm_num) _).ne'

/-- Selection leaves the randomness flag unchanged. -/
theorem select_is_random (s : NetworkIterator) :
    (s.select_new_iterator).is_random = s.is_random := by
  cases s with | mk cur nets rand pool => cases nets <;> rfl

/-- Selection leaves the pool unchanged. -/
theorem select_random_pool (s : NetworkIterator) :
    (s.select_new_iterator).random_pool = s.random_pool := by
  cases s with | mk cur nets rand pool => cases nets <;> rfl

/-- Selecting with an exhausted (or absent) current sub-iterator moves the
head CIDR's addresses into the current slot without changing the pending
multiset. -/
theorem select_remainingMS (s : NetworkIterator)
    (h : s.current_iterator.getD [] = []) :
    (s.select_new_iterator).remainingMS = s.remainingMS := by
  cases s with | mk cur nets rand pool =>
  cases nets with
  | nil => rfl
  | cons n rest =>
    simp only [NetworkIterator.select_new_iterator, NetworkIterator.remainingMS] at *
    rw [h, List.map_cons, List.flatten_cons, ← Multiset.coe_add]
    simp only [Multiset.coe_nil, add_zero, Option.getD_some]
    rw [add_assoc]

/-- Refilling leaves the randomness flag unchanged. -/
theorem fill_is_random (sh : List IpAddr → List IpAddr) (s : NetworkIterator) :
    ((s.fill_random_pool sh).is_random) = s.is_random := by
  cases s with | mk cur nets rand pool => cases cur <;> rfl

/-- Refilling leaves the pending CIDRs unchanged. -/
theorem fill_networks (sh : List IpAddr → List IpAddr) (s : NetworkIterator) :
    (s.fill_random_pool sh).networks = s.networks := by
  cases s with | mk cur nets rand pool => cases cur <;> rfl

/-- Refilling the pool only moves addresses from the current sub-iterator
into the (shuffled) pool: the pending multiset is unchanged. -/
theorem fill_remainingMS (sh : List IpAddr → List IpAddr)
    (hsh : ∀ l, (sh l).Perm l) (s : NetworkIterator) :
    (s.fill_random_pool sh).remainingMS = s.remainingMS := by
  cases s with | mk cur nets rand pool =>
  cases cur with
  | none => rfl
  | some it =>
    simp only [NetworkIterator.fill_random_pool, NetworkIterator.remainingMS,
      Option.getD_some]
    rw [Multiset.coe_eq_coe.mpr (hsh (pool ++ it.take 1000)), ← Multiset.coe_add]
    have hid : (↑(it.take 1000) : Multiset IpAddr) + ↑(it.drop 1000) = ↑it := by
      rw [Multiset.coe_add, List.take_append_drop]
    rw [← hid]
    abel

/-- An empty pool right after a refill means the refill found nothing: the
pool was already empty and the current sub-iterator is exhausted. -/
theorem fill_pool_nil (sh : List IpAddr → List IpAddr)
    (hsh : ∀ l, (sh l).Perm l) (s : NetworkIterator)
    (h : (s.fill_random_pool sh).random_pool = []) :
    (s.fill_random_pool sh).current_iterator.getD [] = [] := by
  cases s with | mk cur nets rand pool =>
  cases cur with
  | none => simp [NetworkIterator.fill_random_pool]
  | some it =>
    simp only [NetworkIterator.fill_random_pool] at h ⊢
    have hnil := eq_nil_of_shuffle_nil sh hsh _ h
    have : it.take 1000 = [] := (List.append_eq_nil.mp hnil).2
    have hit : it = [] := by
      cases it with
      | nil => rfl
      | cons x xs => simp at this
    simp [hit]

/-- The selection phase preserves the pending multiset and the randomness
flag and the pool. -/
theorem phase0_remainingMS (s : NetworkIterator) :
    (s.phase0).remainingMS = s.remainingMS := by
  unfold NetworkIterator.phase0
  split
  · rename_i h
    refine select_remainingMS s ?_
    cases hcur : s.current_iterator with
    | none => rfl
    | some it => simp [hcur] at h
  · rfl

/-- The selection phase leaves the randomness flag unchanged. -/
theorem phase0_is_random (s : NetworkIterator) :
    (s.phase0).is_random = s.is_random := by
  unfold NetworkIterator.phase0
  split
  · exact select_is_random s
  · rfl

/-- The selection phase leaves the pool unchanged. -/
theorem phase0_random_pool (s : NetworkIterator) :
    (s.phase0).random_pool = s.random_pool := by
  unfold NetworkIterator.phase0
  split
  · exact select_random_pool s
  · rfl

/-- If no sub-iterator is active after the selection phase, the state was
already terminal on CIDRs: nothing was selected and no CIDR remains. -/
theorem phase0_current_none (s : NetworkIterator)
    (h : (s.phase0).current_iterator = none) :
    s.phase0 = s ∧ s.current_iterator = none ∧ s.networks = [] := by
  cases s with | mk cur nets rand pool =>
  by_cases hcond : (Option.isNone cur && !List.isEmpty nets) = true
  · exfalso
    have hsel : NetworkIterator.phase0 ⟨cur, nets, rand, pool⟩ =
        NetworkIterator.select_new_iterator ⟨cur, nets, rand, pool⟩ := by
      unfold NetworkIterator.phase0
      rw [if_pos hcond]
    rw [hsel] at h
    rcases nets with _ | ⟨n, rest⟩
    · simp at hcond
    · simp [NetworkIterator.select_new_iterator] at h
  · have hid : NetworkIterator.phase0 ⟨cur, nets, rand, pool⟩ =
        ⟨cur, nets, rand, pool⟩ := by
      unfold NetworkIterator.phase0
      rw [if_neg hcond]
    rw [hid] at h
    have hcur : cur = none := by simpa using h
    refine ⟨hid, hcur, ?_⟩
    rcases nets with _ | ⟨n, rest⟩
    · rfl
    · exact absurd (by simp [hcur]) hcond

/-- The select-then-refill phase preserves the pending multiset. -/
theorem phase1_remainingMS (sh : List IpAddr → List IpAddr)
    (hsh : ∀ l, (sh l).Perm l) (s : NetworkIterator) :
    (s.phase1 sh).remainingMS = s.remainingMS := by
  unfold NetworkIterator.phase1
  split
  · rw [fill_remainingMS sh hsh, phase0_remainingMS]
  · exact phase0_remainingMS s

/-- The select-then-refill phase leaves the randomness flag unchanged. -/
theorem phase1_is_random (sh : List IpAddr → List IpAddr) (s : NetworkIterator) :
    (s.phase1 sh).is_random = s.is_random := by
  unfold NetworkIterator.phase1
  split
  · rw [fill_is_random, phase0_is_random]
  · exact phase0_is_random s

/-- In random mode, an empty pool after the refill phase forces an exhausted
current sub-iterator. -/
theorem phase1_pool_nil_current (sh : List IpAddr → List IpAddr)
    (hsh : ∀ l, (sh l).Perm l) (s : NetworkIterator)
    (hr : s.is_random = true) (h : (s.phase1 sh).random_pool = []) :
    (s.phase1 sh).current_iterator.getD [] = [] := by
  unfold NetworkIterator.phase1 at h ⊢
  split at h
  · rw [if_pos (by assumption)]
    exact fill_pool_nil sh hsh _ h
  · rename_i hcond
    rw [if_neg hcond]
    rw [Bool.and_eq_true, phase0_is_random, phase0_random_pool] at hcond
    exfalso
    rw [phase0_random_pool] at h
    exact hcond ⟨hr, by simp [h]⟩

/-- The select-then-refill phase never touches the pending CIDRs except
through selection: an absent current sub-iterator afterwards means the state
was terminal on CIDRs all along. -/
theorem phase1_current_none (sh : List IpAddr → List IpAddr) (s : NetworkIterator)
    (h : (s.phase1 sh).current_iterator = none) :
    s.phase1 sh = s.phase0 ∧ (s.phase0).current_iterator = none := by
  unfold NetworkIterator.phase1 at h ⊢
  split at h
  · rename_i hcond
    have h0 : (s.phase0).current_iterator = none := by
      rcases hc : (s.phase0).current_iterator with _ | it
      · rfl
      · exfalso
        cases hps : s.phase0 with | mk cur nets rand pool =>
        rw [hps] at hc h
        cases hc
        simp [NetworkIterator.fill_random_pool] at h
    rw [if_pos hcond]
    constructor
    · cases hps : s.phase0 with | mk cur nets rand pool =>
      rw [hps] at h0
      cases h0
      rfl
    · exact h0
  · rename_i hcond
    rw [if_neg hcond]
    exact ⟨rfl, h⟩

/-- An absent current sub-iterator after the select-then-refill phase means
no CIDR remains either. -/
theorem phase1_current_none_networks (sh : List IpAddr → List IpAddr)
    (s : NetworkIterator) (h : (s.phase1 sh).current_iterator = none) :
    (s.phase1 sh).networks = [] := by
  obtain ⟨h1, h2⟩ := phase1_current_none sh s h
  obtain ⟨h3, _, h4⟩ := phase0_current_none s h2
  rw [h1, h3, h4]

/-- The select-then-refill phase preserves the pool in non-random mode. -/
theorem phase1_random_pool_of_not_random (sh : List IpAddr → List IpAddr)
    (s : NetworkIterator) (hr : s.is_random = false) :
    (s.phase1 sh).random_pool = s.random_pool := by
  unfold NetworkIterator.phase1
  rw [if_neg ?_, phase0_random_pool]
  rw [Bool.and_eq_true, phase0_is_random, hr]
  simp

/-- A pop that yielded an address short-circuits the final conditional. -/
theorem postPop_some (r : Option IpAddr × NetworkIterator) (a : IpAddr)
    (h : r.1 = some a) : NetworkIterator.postPop r = r := by
  unfold NetworkIterator.postPop
  rw [h]
  simp

/-- A pop that yielded nothing with no CIDR left returns as-is. -/
theorem postPop_none_no_networks (r : Option IpAddr × NetworkIterator)
    (h1 : r.1 = none) (h2 : r.2.networks = []) :
    NetworkIterator.postPop r = r := by
  unfold NetworkIterator.postPop
  rw [h1, h2]
  simp

/-- A pop that yielded nothing while CIDRs remain advances to the next CIDR
and pops its first address directly from the fresh in-order sub-iterator. -/
theorem postPop_none_networks (v : Option IpAddr) (t : NetworkIterator)
    (n : Ipv4Network) (rest : List Ipv4Network)
    (h1 : v = none) (h2 : t.networks = n :: rest) :
    NetworkIterator.postPop (v, t) =
      ((addressList n).head?,
        { t with current_iterator := some ((addressList n).drop 1),
                 networks := rest }) := by
  subst h1
  cases t with | mk cur nets rand pool =>
  cases h2
  rfl

/-- With nothing selected and no CIDR or pooled address left, nothing is
pending. -/
theorem remainingMS_of_no_items (s : NetworkIterator)
    (h : s.has_no_items_left = true) : s.remainingMS = 0 := by
  cases s with | mk cur nets rand pool =>
  simp only [NetworkIterator.has_no_items_left, Bool.and_eq_true,
    Option.isNone_iff_eq_none, List.isEmpty_iff] at h
  obtain ⟨⟨h1, h2⟩, h3⟩ := h
  simp [NetworkIterator.remainingMS, h1, h2, h3]

/-- An exhausted sub-iterator of a CIDR list is absorbed on the left of a
pending-cons decomposition. -/
theorem ms_cons_shuffle (p tl F : Multiset IpAddr) (a : IpAddr) :
    p + (a ::ₘ tl) + F = a ::ₘ (p + tl + F) := by
  rw [Multiset.add_cons, Multiset.cons_add]

/-- A successful `next` removes exactly the yielded address from the pending
multiset and preserves the reachable-state invariant. -/
theorem next_some_ms (sh : List IpAddr → List IpAddr) (hsh : ∀ l, (sh l).Perm l)
    (s : NetworkIterator) (ip : IpAddr) (s' : NetworkIterator)
    (hwf : s.wfPool) (h : s.next sh = (some ip, s')) :
    s.remainingMS = ip ::ₘ s'.remainingMS ∧ s'.wfPool := by
  unfold NetworkIterator.next at h
  by_cases h0 : s.has_no_items_left = true
  · rw [if_pos h0] at h
    exact absurd (congrArg Prod.fst h)
            (by simp [NetworkIterator.pop_next_iterator_address])
  · rw [if_neg h0] at h
    have hms := phase1_remainingMS sh hsh s
    have hrand := phase1_is_random sh s
    have hpoolnil := phase1_pool_nil_current sh hsh s
    have hnetsnone := phase1_current_none_networks sh s
    have hpoolf := phase1_random_pool_of_not_random sh s
    generalize hT : s.phase1 sh = t at h hms hrand hpoolnil hnetsnone hpoolf
    obtain ⟨cur, nets, rand, pool⟩ := t
    cases rand with
    | true =>
      simp only [if_true] at h
      rcases hp : pool.getLast? with _ | a
      · have hpool : pool = [] := List.getLast?_eq_none_iff.mp hp
        subst hpool
        have hcur : cur.getD [] = [] := hpoolnil (hrand.symm) rfl
        rcases hnets : nets with _ | ⟨n, rest⟩
        · rw [hnets] at h
          rw [postPop_none_no_networks _ rfl rfl] at h
          exact absurd (congrArg Prod.fst h)
            (by simp [NetworkIterator.pop_random_pool])
        · subst hnets
          rw [show (NetworkIterator.pop_random_pool ⟨cur, n :: rest, true, []⟩) =
              ((none : Option IpAddr), (⟨cur, n :: rest, true, []⟩ : NetworkIterator))
              from rfl] at h
          rw [postPop_none_networks none ⟨cur, n :: rest, true, []⟩ n rest rfl rfl] at h
          obtain ⟨a, tail, hat⟩ := List.exists_cons_of_ne_nil (addressList_ne_nil n)
          rw [Prod.mk.injEq] at h
          obtain ⟨h1, h2⟩ := h
          rw [hat] at h1
          simp only [List.head?_cons, Option.some.injEq] at h1
          subst h1
          subst h2
          refine ⟨?_, fun hF => rfl⟩
          rw [← hms]
          simp only [NetworkIterator.remainingMS, hcur, hat, Option.getD_some,
            List.map_cons, List.flatten_cons, List.drop_succ_cons, List.drop_zero,
            Multiset.coe_nil, add_zero, zero_add, List.cons_append,
            ← Multiset.cons_coe, Multiset.coe_add]
      · rw [show (NetworkIterator.pop_random_pool ⟨cur, nets, true, pool⟩) =
            (pool.getLast?, (⟨cur, nets, true, pool.dropLast⟩ : NetworkIterator))
            from rfl] at h
        rw [postPop_some _ a (by simp [hp])] at h
        rw [Prod.mk.injEq] at h
        obtain ⟨h1, h2⟩ := h
        rw [hp] at h1
        obtain rfl : a = ip := by injection h1
        subst h2
        refine ⟨?_, fun hF => Bool.noConfusion hF⟩
        rw [← hms]
        simp only [NetworkIterator.remainingMS]
        have hps : (↑pool : Multiset IpAddr) = a ::ₘ ↑pool.dropLast := by
          conv_lhs => rw [← List.dropLast_append_getLast? a hp]
          rw [← Multiset.coe_add, Multiset.coe_singleton, add_comm,
            Multiset.singleton_add]
        rw [hps, Multiset.cons_add, Multiset.cons_add]
    | false =>
      simp only [Bool.false_eq_true, if_false] at h
      have hspool : pool = [] := by
        have hsr : s.is_random = false := hrand.symm
        have h5 : pool = s.random_pool := hpoolf hsr
        rw [h5]
        exact hwf hsr
      subst hspool
      rcases hcur : cur with _ | it
      · have hnets : nets = [] := hnetsnone (by rw [hcur])
        subst hnets
        subst hcur
        rw [show (NetworkIterator.pop_next_iterator_address ⟨none, [], false, []⟩) =
            ((none : Option IpAddr), (⟨none, [], false, []⟩ : NetworkIterator))
            from rfl] at h
        rw [postPop_none_no_networks _ rfl rfl] at h
        exact absurd (congrArg Prod.fst h)
            (by simp [NetworkIterator.pop_next_iterator_address])
      · subst hcur
        rcases hit : it with _ | ⟨a, tail⟩
        · subst hit
          rcases hnets : nets with _ | ⟨n, rest⟩
          · subst hnets
            rw [postPop_none_no_networks _ rfl rfl] at h
            exact absurd (congrArg Prod.fst h)
              (by simp [NetworkIterator.pop_next_iterator_address])
          · subst hnets
            rw [show (NetworkIterator.pop_next_iterator_address
                ⟨some [], n :: rest, false, []⟩) =
                ((none : Option IpAddr),
                 (⟨some [], n :: rest, false, []⟩ : NetworkIterator)) from rfl] at h
            rw [postPop_none_networks none ⟨some [], n :: rest, false, []⟩ n rest rfl rfl] at h
            obtain ⟨a, tail, hat⟩ := List.exists_cons_of_ne_nil (addressList_ne_nil n)
            rw [Prod.mk.injEq] at h
            obtain ⟨h1, h2⟩ := h
            rw [hat] at h1
            simp only [List.head?_cons, Option.some.injEq] at h1
            subst h1
            subst h2
            refine ⟨?_, fun _ => rfl⟩
            rw [← hms]
            simp only [NetworkIterator.remainingMS, hat, Option.getD_some,
              List.map_cons, List.flatten_cons, List.drop_succ_cons, List.drop_zero,
              Multiset.coe_nil, add_zero, zero_add, List.cons_append,
              ← Multiset.cons_coe, Multiset.coe_add]
        · subst hit
          rw [show (NetworkIterator.pop_next_iterator_address
              ⟨some (a :: tail), nets, false, []⟩) =
              (some a, (⟨some tail, nets, false, []⟩ : NetworkIterator)) from rfl] at h
          rw [postPop_some _ a rfl] at h
          rw [Prod.mk.injEq] at h
          obtain ⟨h1, h2⟩ := h
          obtain rfl : a = ip := by injection h1
          subst h2
          refine ⟨?_, fun _ => rfl⟩
          rw [← hms]
          simp only [NetworkIterator.remainingMS, Option.getD_some]
          rw [← Multiset.cons_coe]
          exact ms_cons_shuffle _ _ _ a

/-- A `next` that yields nothing happens only when nothing is pending. -/
theorem next_none_ms (sh : List IpAddr → List IpAddr) (hsh : ∀ l, (sh l).Perm l)
    (s : NetworkIterator) (s' : NetworkIterator)
    (hwf : s.wfPool) (h : s.next sh = (none, s')) : s.remainingMS = 0 := by
  unfold NetworkIterator.next at h
  by_cases h0 : s.has_no_items_left = true
  · exact remainingMS_of_no_items s h0
  · rw [if_neg h0] at h
    have hms := phase1_remainingMS sh hsh s
    have hrand := phase1_is_random sh s
    have hpoolnil := phase1_pool_nil_current sh hsh s
    have hnetsnone := phase1_current_none_networks sh s
    have hpoolf := phase1_random_pool_of_not_random sh s
    generalize hT : s.phase1 sh = t at h hms hrand hpoolnil hnetsnone hpoolf
    obtain ⟨cur, nets, rand, pool⟩ := t
    cases rand with
    | true =>
      simp only [if_true] at h
      rcases hp : pool.getLast? with _ | a
      · have hpool : pool = [] := List.getLast?_eq_none_iff.mp hp
        subst hpool
        have hcur : cur.getD [] = [] := hpoolnil (hrand.symm) rfl
        rcases hnets : nets with _ | ⟨n, rest⟩
        · subst hnets
          rw [← hms]
          simp [NetworkIterator.remainingMS, hcur]
        · subst hnets
          rw [show (NetworkIterator.pop_random_pool ⟨cur, n :: rest, true, []⟩) =
              ((none : Option IpAddr), (⟨cur, n :: rest, true, []⟩ : NetworkIterator))
              from rfl] at h
          rw [postPop_none_networks none ⟨cur, n :: rest, true, []⟩ n rest rfl rfl] at h
          obtain ⟨a, tail, hat⟩ := List.exists_cons_of_ne_nil (addressList_ne_nil n)
          have h1 := congrArg Prod.fst h
          rw [hat] at h1
          simp at h1
      · rw [show (NetworkIterator.pop_random_pool ⟨cur, nets, true, pool⟩) =
            (pool.getLast?, (⟨cur, nets, true, pool.dropLast⟩ : NetworkIterator))
            from rfl] at h
        rw [postPop_some _ a (by simp [hp])] at h
        have h1 := congrArg Prod.fst h
        rw [hp] at h1
        simp at h1
    | false =>
      simp only [Bool.false_eq_true, if_false] at h
      have hspool : pool = [] := by
        have hsr : s.is_random = false := hrand.symm
        have h5 : pool = s.random_pool := hpoolf hsr
        rw [h5]
        exact hwf hsr
      subst hspool
      rcases hcur : cur with _ | it
      · have hnets : nets = [] := hnetsnone (by rw [hcur])
        subst hnets
        subst hcur
        rw [← hms]
        simp [NetworkIterator.remainingMS]
      · subst hcur
        rcases hit : it with _ | ⟨a, tail⟩
        · subst hit
          rcases hnets : nets with _ | ⟨n, rest⟩
          · subst hnets
            rw [← hms]
            simp [NetworkIterator.remainingMS]
          · subst hnets
            rw [show (NetworkIterator.pop_next_iterator_address
                ⟨some [], n :: rest, false, []⟩) =
                ((none : Option IpAddr),
                 (⟨some [], n :: rest, false, []⟩ : NetworkIterator)) from rfl] at h
            rw [postPop_none_networks none ⟨some [], n :: rest, false, []⟩ n rest rfl rfl] at h
            obtain ⟨a, tail, hat⟩ := List.exists_cons_of_ne_nil (addressList_ne_nil n)
            have h1 := congrArg Prod.fst h
            rw [hat] at h1
            simp at h1
        · subst hit
          rw [show (NetworkIterator.pop_next_iterator_address
              ⟨some (a :: tail), nets, false, []⟩) =
              (some a, (⟨some tail, nets, false, []⟩ : NetworkIterator)) from rfl] at h
          rw [postPop_some _ a rfl] at h
          have h1 := congrArg Prod.fst h
          simp at h1

/-- With enough fuel, running the iterator to exhaustion yields exactly the
pending multiset of the start state. -/
theorem run_ms (sh : Nat → List IpAddr → List IpAddr)
    (hsh : ∀ k l, (sh k l).Perm l) (fuel : Nat) :
    ∀ (k : Nat) (s : NetworkIterator), s.wfPool →
      Multiset.card s.remainingMS ≤ fuel →
      (↑(NetworkIterator.run sh k fuel s) : Multiset IpAddr) = s.remainingMS := by
  induction fuel with
  | zero =>
    intro k s hwf hcard
    have h0 : s.remainingMS = 0 := by
      rw [← Multiset.card_eq_zero]
      omega
    rw [h0]
    rfl
  | succ fuel ih =>
    intro k s hwf hcard
    rcases hnext : s.next (sh k) with ⟨v, s2⟩
    cases v with
    | none =>
      have h0 := next_none_ms (sh k) (hsh k) s s2 hwf hnext
      simp only [NetworkIterator.run, hnext]
      rw [h0]
      rfl
    | some ip =>
      obtain ⟨hmseq, hwf2⟩ := next_some_ms (sh k) (hsh k) s ip s2 hwf hnext
      have hcard2 : Multiset.card s2.remainingMS ≤ fuel := by
        have hc := congrArg Multiset.card hmseq
        rw [Multiset.card_cons] at hc
        omega
      simp only [NetworkIterator.run, hnext]
      rw [← Multiset.cons_coe, ih (k + 1) s2 hwf2 hcard2, hmseq]

/-- The pending multiset of a freshly constructed iterator is the address
multiset of the (possibly construction-shuffled) CIDR list. -/
theorem new_remainingMS (tau : List Ipv4Network → List Ipv4Network)
    (networks : List Ipv4Network) (b : Bool) :
    (NetworkIterator.new tau networks b).remainingMS =
      ↑(allTargets (if b then tau networks else networks)) := by
  cases b <;>
    simp [NetworkIterator.new, NetworkIterator.remainingMS, allTargets]

/-- Inserting a reply keyed by its sender IPv4 keeps the accumulator keys
distinct. -/
theorem insertTarget_nodup (ip : IpAddr) (mac : MacAddr)
    (m : List (IpAddr × MacAddr)) (h : (m.map Prod.fst).Nodup) :
    ((insertTarget ip mac m).map Prod.fst).Nodup := by
  simp only [insertTarget, List.map_cons, List.nodup_cons]
  refine ⟨?_, ?_⟩
  · intro hmem
    rw [List.mem_map] at hmem
    obtain ⟨p, hp, hfst⟩ := hmem
    rw [List.mem_filter] at hp
    have hne := hp.2
    simp only [ne_eq, decide_not, Bool.not_eq_true', decide_eq_false_iff_not,
      Decidable.not_not] at hne
    exact absurd hfst (by simpa using hne)
  · exact ((List.filter_sublist m).map Prod.fst).nodup h

/-- One receiver step preserves the counter inequalities and the
distinctness of the accumulator keys. -/
theorem receive_step_invariant (s : RxState) (e : RxEvent)
    (h1 : s.arp_count ≤ s.packet_count)
    (h2 : s.discover_map.length ≤ s.arp_count)
    (h3 : (s.discover_map.map Prod.fst).Nodup) :
    (receive_step s e).arp_count ≤ (receive_step s e).packet_count ∧
    (receive_step s e).discover_map.length ≤ (receive_step s e).arp_count ∧
    ((receive_step s e).discover_map.map Prod.fst).Nodup := by
  cases e with
  | timeout => exact ⟨h1, h2, h3⟩
  | frame bytes =>
    simp only [receive_step]
    split
    · exact ⟨by dsimp only; omega, by dsimp only; omega, h3⟩
    · split
      · exact ⟨by dsimp only; omega, by dsimp only; omega, h3⟩
      · split
        · refine ⟨by dsimp only; omega, ?_, insertTarget_nodup _ _ _ h3⟩
          dsimp only
          simp only [insertTarget, List.length_cons]
          have hf := List.length_filter_le
            (fun p => decide (p.1 ≠ senderProtoAddr bytes)) s.discover_map
          omega
        · exact ⟨by dsimp only; omega, by dsimp only; omega, h3⟩

/-- The receiver fold from any state satisfying the invariants keeps them. -/
theorem receive_fold_invariant (events : List RxEvent) :
    ∀ s : RxState, s.arp_count ≤ s.packet_count →
      s.discover_map.length ≤ s.arp_count →
      (s.discover_map.map Prod.fst).Nodup →
      ((events.foldl receive_step s).arp_count ≤
          (events.foldl receive_step s).packet_count ∧
        (events.foldl receive_step s).discover_map.length ≤
          (events.foldl receive_step s).arp_count ∧
        ((events.foldl receive_step s).discover_map.map Prod.fst).Nodup) := by
  induction events with
  | nil => exact fun s h1 h2 h3 => ⟨h1, h2, h3⟩
  | cons e rest ih =>
    intro s h1 h2 h3
    obtain ⟨g1, g2, g3⟩ := receive_step_invariant s e h1 h2 h3
    exact ih (receive_step s e) g1 g2 g3

/-- Binding a success applies the continuation. -/
theorem except_bind_ok (a : α) (f : α → Except ArithError β) :
    (Except.ok a : Except ArithError α).bind f = f a := rfl

/-- Binding a failure keeps the failure. -/
theorem except_bind_error (e : ArithError) (f : α → Except ArithError β) :
    (Except.error e : Except ArithError α).bind f = Except.error e := rfl

/-- Mapping over a success applies the function. -/
theorem except_map_ok (a : α) (f : α → β) :
    (Except.ok a : Except ArithError α).map f = Except.ok (f a) := rfl

/-- Mapping over a failure keeps the failure. -/
theorem except_map_error (e : ArithError) (f : α → β) :
    (Except.error e : Except ArithError α).map f = Except.error e := rfl

/-- Division with a positive divisor succeeds. -/
theorem checkedDiv_pos (a b : Nat) (hb : b ≠ 0) : checkedDiv a b = .ok (a / b) := by
  simp [checkedDiv, hb]

/-- Division by zero fails with exactly `divByZero`. -/
theorem checkedDiv_zero (a : Nat) : checkedDiv a 0 = .error .divByZero := by
  simp [checkedDiv]

/-- Subtraction can only fail with `underflow`. -/
theorem checkedSub_error (a b : Nat) (e : ArithError)
    (h : checkedSub a b = .error e) : e = .underflow := by
  unfold checkedSub at h
  split at h <;> simp_all

/-- Narrowing can only fail with `overflow`. -/
theorem u64OfU128_error (a : Nat) (e : ArithError)
    (h : u64OfU128 a = .error e) : e = .overflow := by
  unfold u64OfU128 at h
  split at h <;> simp_all

/-- C9: when neither the interval/bandwidth, timeout, retry, random nor
numeric flags are given, the constructed `ScanOptions` carries exactly the
profile defaults: Default → interval 10 ms, timeout 2000 ms, retry 1,
randomize off, resolve on; Fast → interval 0, timeout 800, retry 1, randomize
off, resolve on; Stealth → interval 20, timeout 2000, retry 1, randomize on,
resolve off; Chaos → interval 10, timeout 2000, retry 2, randomize on,
resolve on. -/
theorem C9_profile_defaults :
    (compute_scan_timing none none .Default = .Interval 10 ∧
      timeout_of none .Default = 2000 ∧ retry_count_of none .Default = 1 ∧
      randomize_targets_of false .Default = false ∧
      resolve_hostname_of false .Default = true) ∧
    (compute_scan_timing none none .Fast = .Interval 0 ∧
      timeout_of none .Fast = 800 ∧ retry_count_of none .Fast = 1 ∧
      randomize_targets_of false .Fast = false ∧
      resolve_hostname_of false .Fast = true) ∧
    (compute_scan_timing none none .Stealth = .Interval 20 ∧
      timeout_of none .Stealth = 2000 ∧ retry_count_of none .Stealth = 1 ∧
      randomize_targets_of false .Stealth = true ∧
      resolve_hostname_of false .Stealth = false) ∧
    (compute_scan_timing none none .Chaos = .Interval 10 ∧
      timeout_of none .Chaos = 2000 ∧ retry_count_of none .Chaos = 2 ∧
      randomize_targets_of false .Chaos = true ∧
      resolve_hostname_of false .Chaos = true) := by
  decide

/-- C2: the bandwidth-mode interval derivation does not clamp. At the spec's
own bandwidth scenario (256 hosts, 42-byte frames, 336000 bits per second,
one retry) the quotient `request_phase_ms / retry / host = 32 / 1 / 256 = 0`
and the unsigned subtraction `0 - 3` underflows, so `compute_scan_estimation`
panics instead of returning the claimed clamped `interval_ms = 0`. -/
theorem C2_bandwidth_underflow :
    compute_scan_estimation 256 bandwidthOptions336 = .error .underflow := by
  rfl

/-- C3 counterexample: a 14-byte frame whose ethertype is ARP but whose ARP
payload is missing does not `continue` before the counter bump: `arp_count`
becomes 1 even though the payload fails to parse (nothing is inserted), so
`arp_count` is not incremented "only after the ARP payload has parsed
successfully". -/
theorem C3_short_frame_counts :
    arpPayloadParses shortArpFrame = false ∧
    (receive_arp_responses [.frame shortArpFrame]).arp_count = 1 ∧
    (receive_arp_responses [.frame shortArpFrame]).discover_map = [] := by
  decide

/-- C3 amended: in every receiver iteration that reads a frame of at least 14
bytes whose ethertype is ARP, `arp_count` is incremented whether or not the
28-byte ARP payload parses; a too-short payload only skips the map
insertion. -/
theorem C3_arp_count_after_ethertype (s : RxState) (bytes : List Nat)
    (hlen : 14 ≤ bytes.length) (harp : frameEthertype bytes = 0x0806) :
    (receive_step s (.frame bytes)).arp_count = s.arp_count + 1 ∧
    (arpPayloadParses bytes = false →
      (receive_step s (.frame bytes)).discover_map = s.discover_map) := by
  simp only [receive_step]
  rw [if_neg (by omega), if_neg (by simp [harp])]
  refine ⟨by split <;> rfl, fun hp => by rw [if_neg (by simp [hp])]⟩

/-- C3 amended, witnessed at the short ARP frame read from the zero state. -/
theorem C3_arp_count_witness :
    (receive_step { packet_count := 0, arp_count := 0, discover_map := [] }
      (.frame shortArpFrame)).arp_count = 0 + 1 :=
  (C3_arp_count_after_ethertype _ shortArpFrame (by decide) (by decide)).1

/-- C10 counterexample: `host_count = 1` satisfies the claimed precondition
(interval mode, so the bandwidth clause is vacuous), yet with the legitimate
option `--retry 0` the request phase `1 * (3 + 10) * 0 = 0` is the divisor of
the bandwidth derivation, which divides by zero. -/
theorem C10_retry_zero_divides :
    compute_scan_estimation 1 retry0Options = .error .divByZero := by
  rfl

/-- C10 amended: `compute_scan_estimation` is free of division by zero
exactly under `host_count ≥ 1`, `retry_count ≥ 1` and, in bandwidth mode,
`bandwidth ≥ 1`: under these no division by zero occurs (bandwidth mode may
still underflow, a different failure), while `host_count = 0`,
`retry_count = 0` or a zero bandwidth each force a division by zero. -/
theorem C10_division_totality (host : Nat) (o : ScanOptions) :
    ((1 ≤ host ∧ 1 ≤ o.retry_count ∧
        (∀ b, o.scan_timing = .Bandwidth b → 1 ≤ b)) →
      compute_scan_estimation host o ≠ .error .divByZero) ∧
    (host = 0 → compute_scan_estimation host o = .error .divByZero) ∧
    (o.retry_count = 0 → compute_scan_estimation host o = .error .divByZero) ∧
    (∀ b, o.scan_timing = .Bandwidth b → b = 0 →
      compute_scan_estimation host o = .error .divByZero) := by
  cases htim : o.scan_timing with
  | Interval i =>
    refine ⟨fun ⟨h1, h2, _⟩ => ?_, fun h0 => ?_, fun h0 => ?_, fun b hb => ?_⟩
    · simp only [compute_scan_estimation, htim]
      rw [checkedDiv_pos _ _ (by positivity), except_map_ok]
      simp
    · simp only [compute_scan_estimation, htim, h0, Nat.zero_mul]
      rw [checkedDiv_zero, except_map_error]
    · simp only [compute_scan_estimation, htim, h0, Nat.mul_zero]
      rw [checkedDiv_zero, except_map_error]
    · cases hb
  | Bandwidth b =>
    refine ⟨fun ⟨h1, h2, h3⟩ => ?_, fun h0 => ?_, fun h0 => ?_, fun c hc hc0 => ?_⟩
    · have hb1 : 1 ≤ b := h3 b rfl
      simp only [compute_scan_estimation, htim]
      rw [checkedDiv_pos _ _ (by omega), except_bind_ok,
        checkedDiv_pos _ _ (by omega), except_bind_ok,
        checkedDiv_pos _ _ (by omega), except_bind_ok]
      cases hs : checkedSub (host * (if o.has_vlan then 46 else 42) * 1000 / b /
          o.retry_count / host) 3 with
      | error e =>
        rw [except_bind_error]
        simp [checkedSub_error _ _ _ hs]
      | ok n =>
        rw [except_bind_ok]
        cases hu : u64OfU128 n with
        | error e =>
          rw [except_map_error]
          simp [u64OfU128_error _ _ hu]
        | ok n2 =>
          rw [except_map_ok]
          simp
    · subst h0
      simp only [compute_scan_estimation, htim]
      by_cases hb0 : b = 0
      · rw [hb0, checkedDiv_zero, except_bind_error]
      · rw [checkedDiv_pos _ _ hb0, except_bind_ok]
        by_cases hr0 : o.retry_count = 0
        · rw [hr0, checkedDiv_zero, except_bind_error]
        · rw [checkedDiv_pos _ _ hr0, except_bind_ok, checkedDiv_zero,
            except_bind_error]
    · simp only [compute_scan_estimation, htim]
      by_cases hb0 : b = 0
      · rw [hb0, checkedDiv_zero, except_bind_error]
      · rw [checkedDiv_pos _ _ hb0, except_bind_ok, h0, checkedDiv_zero,
          except_bind_error]
    · cases hc
      simp only [compute_scan_estimation, htim]
      rw [hc0, checkedDiv_zero, except_bind_error]

/-- C10 amended, witnessed: three hosts with the default options (interval
mode, one retry) hit no division by zero. -/
theorem C10_division_totality_witness :
    compute_scan_estimation 3 baseOptions ≠ .error .divByZero :=
  (C10_division_totality 3 baseOptions).1
    ⟨by decide, by decide, fun b h => ScanTiming.noConfusion h⟩

/-- C1 counterexample: with a configured `network_range` of [192.168.1.5/32]
but an interface whose first network is 10.0.0.1/32, the sender loop emits
exactly [10.0.0.1] — the interface network's address, not the union of the
configured CIDRs — so the emitted target set is not obtained from the
configured `ScanOptions.network_range`. -/
theorem C1_range_ignored :
    sender_emissions (fun _ l => l) rangeOptions ifaceNetwork = [0x0A000001] ∧
    specNetworkRangeUnion rangeOptions = [0xC0A80105] ∧
    sender_emissions (fun _ l => l) rangeOptions ifaceNetwork ≠
      specNetworkRangeUnion rangeOptions := by
  decide

/-- C1 amended: for every retry pass the sender collects a fresh in-memory
target list over the interface's first IP network (re-shuffled per pass when
randomization is on) and emits one ARP request per address;
`ScanOptions.network_range` plays no role, so for permutation shuffles the
whole emission is exactly `retry_count` copies of the interface network's
address multiset, whatever range is configured. -/
theorem C1_per_pass_interface_network (sh : Nat → List IpAddr → List IpAddr)
    (o : ScanOptions) (net : Ipv4Network) (hsh : ∀ k l, (sh k l).Perm l) :
    (↑(sender_emissions sh o net) : Multiset IpAddr) =
      o.retry_count • (↑(addressList net) : Multiset IpAddr) := by
  unfold sender_emissions
  generalize o.retry_count = n
  induction n with
  | zero => simp
  | succ n ih =>
    rw [List.range_succ, List.map_append, List.flatten_append, ← Multiset.coe_add,
      ih, succ_nsmul]
    congr 1
    simp only [List.map_cons, List.map_nil, List.flatten_cons, List.flatten_nil,
      List.append_nil, sender_pass_targets]
    split
    · exact Multiset.coe_eq_coe.mpr (hsh n (addressList net))
    · rfl

/-- C1 amended, witnessed with identity shuffles at the concrete range
options and interface network. -/
theorem C1_per_pass_witness :
    (↑(sender_emissions (fun _ l => l) rangeOptions ifaceNetwork) : Multiset IpAddr) =
      rangeOptions.retry_count • (↑(addressList ifaceNetwork) : Multiset IpAddr) :=
  C1_per_pass_interface_network _ rangeOptions ifaceNetwork
    (fun _ l => List.Perm.refl l)

/-- C8 counterexample: with `vlan_id = 4096` (a perfectly valid u16 flag
value) the VID field of the built frame's TCI decodes to 0, not 4096 — pnet's
setter keeps only the low 12 bits — so the claimed encoding `VID = v` fails. -/
theorem C8_vid_truncated :
    tciVid (((send_arp_request vlanOptions4096 ⟨1, 2, 3, 4, 5, 6⟩ 1 2).drop 14).take 2) = 0 ∧
    tciVid (((send_arp_request vlanOptions4096 ⟨1, 2, 3, 4, 5, 6⟩ 1 2).drop 14).take 2) ≠ 4096 := by
  decide

/-- C8 amended: every frame built by `send_arp_request` has the mandated wire
layout: without VLAN the buffer is exactly 42 bytes with bytes [12..14] =
08 06 followed by the 28-byte ARP payload; with `vlan_id = v` the buffer is
exactly 46 bytes with bytes [12..14] = 81 00, bytes [14..16] encoding
PCP = 1, DEI = 0 and VID = v mod 4096 (equal to `v` whenever `v < 4096`),
bytes [16..18] = 08 06, followed by the 28-byte ARP payload. -/
theorem C8_frame_layout (o : ScanOptions) (mac : MacAddr) (sip tip : IpAddr) :
    (arpPayloadBytes o (o.source_mac.getD mac) (o.destination_mac.getD .broadcast)
      sip tip).length = 28 ∧
    (o.vlan_id = none →
      (send_arp_request o mac sip tip).length = 42 ∧
      ((send_arp_request o mac sip tip).drop 12).take 2 = [0x08, 0x06] ∧
      (send_arp_request o mac sip tip).drop 14 =
        arpPayloadBytes o (o.source_mac.getD mac) (o.destination_mac.getD .broadcast)
          sip tip) ∧
    (∀ v, o.vlan_id = some v →
      (send_arp_request o mac sip tip).length = 46 ∧
      ((send_arp_request o mac sip tip).drop 12).take 2 = [0x81, 0x00] ∧
      ((send_arp_request o mac sip tip).drop 14).take 2 = vlanTciBytes v ∧
      tciPcp (vlanTciBytes v) = 1 ∧ tciDei (vlanTciBytes v) = 0 ∧
      tciVid (vlanTciBytes v) = v % 4096 ∧
      ((send_arp_request o mac sip tip).drop 16).take 2 = [0x08, 0x06] ∧
      (send_arp_request o mac sip tip).drop 18 =
        arpPayloadBytes o (o.source_mac.getD mac) (o.destination_mac.getD .broadcast)
          sip tip) := by
  refine ⟨rfl, fun hv => ?_, fun v hv => ?_⟩
  · simp only [send_arp_request, hv]
    exact ⟨rfl, rfl, rfl⟩
  · simp only [send_arp_request, hv]
    refine ⟨rfl, rfl, rfl, ?_, ?_, ?_, rfl, rfl⟩
    · simp only [tciPcp, vlanTciBytes, List.getD_cons_zero]
      omega
    · simp only [tciDei, vlanTciBytes, List.getD_cons_zero]
      omega
    · simp only [tciVid, vlanTciBytes, List.getD_cons_zero, List.getD_cons_succ]
      omega

/-- C8 amended, witnessed at the spec's VLAN-45 scenario. -/
theorem C8_frame_layout_witness :
    (send_arp_request { baseOptions with vlan_id := some 45 } ⟨1, 2, 3, 4, 5, 6⟩
      1 2).length = 46 ∧
    tciVid (vlanTciBytes 45) = 45 % 4096 :=
  ⟨((C8_frame_layout { baseOptions with vlan_id := some 45 } ⟨1, 2, 3, 4, 5, 6⟩
      1 2).2.2 45 rfl).1,
   ((C8_frame_layout { baseOptions with vlan_id := some 45 } ⟨1, 2, 3, 4, 5, 6⟩
      1 2).2.2 45 rfl).2.2.2.2.2.1⟩

set_option maxRecDepth 4096 in
/-- The spec's per-byte zero-padded formatting agrees with the source's
two-digit uppercase formatting on every octet. -/
theorem specHex2_eq_hex2 : ∀ v < 256, specHex2 v = hex2 v := by
  decide

/-- C4: for every MAC queried against a loaded database, `search_by_mac`
computes the OUI key as the first three octets each formatted `%02X`
(six uppercase, per-byte zero-padded hex characters), matches it against the
OUI-key column (field index 1) of the CSV records with the header row
skipped, and returns the vendor-name column (field index 2) of the first
matching record, or `none` when no record matches — it agrees with the
specification-side lookup on every database. -/
theorem C4_oui_lookup (m : MacAddr) (ha : m.a < 256) (hb : m.b < 256)
    (hc : m.c < 256) :
    vendor_oui m = specOuiKey m ∧
    ∀ rows : List (List String), search_by_mac rows m = specSearchByMac rows m := by
  have hkey : vendor_oui m = specOuiKey m := by
    unfold vendor_oui specOuiKey
    rw [specHex2_eq_hex2 m.a ha, specHex2_eq_hex2 m.b hb, specHex2_eq_hex2 m.c hc]
  refine ⟨hkey, fun rows => ?_⟩
  unfold search_by_mac specSearchByMac
  rw [hkey]

/-- C4 witnessed at the zero-padding MAC 00:22:72:D7:B5:23 on the sample
database: the key is 002272 and the lookup returns the first matching
record's vendor name. -/
theorem C4_oui_lookup_witness :
    vendor_oui ⟨0, 34, 114, 215, 181, 35⟩ = specOuiKey ⟨0, 34, 114, 215, 181, 35⟩ ∧
    search_by_mac sampleOuiDb ⟨0, 34, 114, 215, 181, 35⟩ =
      some "American Micro-Fuel Device Corp." :=
  ⟨(C4_oui_lookup ⟨0, 34, 114, 215, 181, 35⟩ (by decide) (by decide) (by decide)).1,
   by decide⟩

/-- C5 counterexample: over the CIDRs [5/32, 9/32] in random mode with
identity shuffles, the first `next` exhausts the first CIDR; on the second
`next` the refilled pool is still empty, yet the call yields address 9 —
taken directly, in order, from the second CIDR's fresh sub-iterator, not
popped from a refilled shuffled pool (whose pop would yield nothing). -/
theorem C5_direct_pop_after_advance :
    ((iterTwo.next id).2.phase1 id).random_pool = [] ∧
    (((iterTwo.next id).2).next id).1 = some 9 ∧
    (((iterTwo.next id).2).next id).1 ≠
      ((iterTwo.next id).2.phase1 id).random_pool.getLast? := by
  decide

/-- C5 amended: in random mode every yielded address is popped from the
(possibly refilled, shuffled) pool — except when the refilled pool is still
empty while CIDRs remain: then the iterator advances and returns the first
address of the next CIDR directly, in order, from its sub-iterator. -/
theorem C5_pop_source (sh : List IpAddr → List IpAddr) (s : NetworkIterator)
    (ip : IpAddr) (hr : s.is_random = true) (hip : (s.next sh).1 = some ip) :
    some ip = (s.phase1 sh).random_pool.getLast? ∨
    ((s.phase1 sh).random_pool = [] ∧
      ∃ n rest, (s.phase1 sh).networks = n :: rest ∧
        some ip = (addressList n).head?) := by
  unfold NetworkIterator.next at hip
  by_cases h0 : s.has_no_items_left = true
  · rw [if_pos h0] at hip
    simp at hip
  · rw [if_neg h0] at hip
    have hrand := phase1_is_random sh s
    generalize hT : s.phase1 sh = t at hip hrand ⊢
    obtain ⟨cur, nets, rand, pool⟩ := t
    obtain rfl : rand = true := hrand.trans hr
    simp only [if_true] at hip
    rcases hp : pool.getLast? with _ | a
    · have hpool : pool = [] := List.getLast?_eq_none_iff.mp hp
      subst hpool
      rcases hnets : nets with _ | ⟨n, rest⟩
      · subst hnets
        rw [postPop_none_no_networks _ rfl rfl] at hip
        simp [NetworkIterator.pop_random_pool] at hip
      · subst hnets
        rw [show (NetworkIterator.pop_random_pool ⟨cur, n :: rest, true, []⟩) =
            ((none : Option IpAddr), (⟨cur, n :: rest, true, []⟩ : NetworkIterator))
            from rfl] at hip
        rw [postPop_none_networks none ⟨cur, n :: rest, true, []⟩ n rest rfl rfl]
          at hip
        exact Or.inr ⟨rfl, n, rest, rfl, hip.symm⟩
    · rw [show (NetworkIterator.pop_random_pool ⟨cur, nets, true, pool⟩) =
          (pool.getLast?, (⟨cur, nets, true, pool.dropLast⟩ : NetworkIterator))
          from rfl] at hip
      rw [postPop_some _ a (by simp [hp])] at hip
      have hip2 : pool.getLast? = some ip := hip
      rw [hp] at hip2
      exact Or.inl hip2.symm

/-- C5 amended, witnessed at the random two-CIDR iterator: its first yielded
address 5 comes from one of the two amended sources. -/
theorem C5_pop_source_witness :
    some 5 = (iterTwo.phase1 id).random_pool.getLast? ∨
    ((iterTwo.phase1 id).random_pool = [] ∧
      ∃ n rest, (iterTwo.phase1 id).networks = n :: rest ∧
        some 5 = (addressList n).head?) :=
  C5_pop_source id iterTwo 5 (by rfl) (by decide)

/-- C6: at the end of every finite receiver trace (hence at every point of
the loop, each trace prefix being itself a trace),
packet_count ≥ arp_count ≥ number of accumulator entries: every successfully
read frame is counted, `arp_count` never exceeds the frame count, and the
accumulator — whose IPv4 keys stay pairwise distinct — never outgrows
`arp_count`. -/
theorem C6_receiver_invariant (events : List RxEvent) :
    (receive_arp_responses events).arp_count ≤
      (receive_arp_responses events).packet_count ∧
    (receive_arp_responses events).discover_map.length ≤
      (receive_arp_responses events).arp_count ∧
    ((receive_arp_responses events).discover_map.map Prod.fst).Nodup :=
  receive_fold_invariant events
    { packet_count := 0, arp_count := 0, discover_map := [] }
    (Nat.le_refl 0) (Nat.le_refl 0) List.nodup_nil

/-- C7: over any finite CIDR list, the random-mode iterator yields the same
address multiset as the sequential iterator — for any permutation shuffles —
and in either mode every address of every configured CIDR is yielded exactly
once (its output count equals its count in the CIDR union) before the
iterator returns `none`. -/
theorem C7_random_sequential_multiset (networks : List Ipv4Network)
    (sh sh2 : Nat → List IpAddr → List IpAddr)
    (tau tau2 : List Ipv4Network → List Ipv4Network)
    (hsh : ∀ k l, (sh k l).Perm l) (htau : ∀ l, (tau l).Perm l)
    (hsh2 : ∀ k l, (sh2 k l).Perm l) :
    (↑(iterate_all sh tau networks true) : Multiset IpAddr) =
      ↑(iterate_all sh2 tau2 networks false) ∧
    (∀ a, (iterate_all sh tau networks true).count a =
      (allTargets networks).count a) ∧
    (∀ a, (iterate_all sh2 tau2 networks false).count a =
      (allTargets networks).count a) := by
  have hflat : ((tau networks).map addressList).flatten.Perm
      ((networks.map addressList).flatten) :=
    ((htau networks).map addressList).flatten
  have hrand : (↑(iterate_all sh tau networks true) : Multiset IpAddr) =
      ↑(allTargets networks) := by
    unfold iterate_all
    have hcard : Multiset.card (NetworkIterator.new tau networks true).remainingMS ≤
        (allTargets networks).length := by
      rw [new_remainingMS, if_pos rfl, Multiset.coe_card]
      exact Nat.le_of_eq hflat.length_eq
    rw [run_ms sh hsh _ 0 _ (fun hF => rfl) hcard, new_remainingMS, if_pos rfl]
    exact Multiset.coe_eq_coe.mpr hflat
  have hseq : (↑(iterate_all sh2 tau2 networks false) : Multiset IpAddr) =
      ↑(allTargets networks) := by
    unfold iterate_all
    have hcard : Multiset.card (NetworkIterator.new tau2 networks false).remainingMS ≤
        (allTargets networks).length := by
      rw [new_remainingMS, if_neg (by simp), Multiset.coe_card]
    rw [run_ms sh2 hsh2 _ 0 _ (fun hF => rfl) hcard, new_remainingMS,
      if_neg (by simp)]
  refine ⟨hrand.trans hseq.symm, fun a => ?_, fun a => ?_⟩
  · rw [← Multiset.coe_count, hrand, Multiset.coe_count]
  · rw [← Multiset.coe_count, hseq, Multiset.coe_count]

/-- C7 witnessed: identity shuffles over the CIDRs [5/32, 16/30]: both modes
yield the multiset of the five configured addresses. -/
theorem C7_random_sequential_witness :
    (↑(iterate_all (fun _ l => l) id [⟨5, 32⟩, ⟨16, 30⟩] true) : Multiset IpAddr) =
      ↑(iterate_all (fun _ l => l) id [⟨5, 32⟩, ⟨16, 30⟩] false) :=
  (C7_random_sequential_multiset [⟨5, 32⟩, ⟨16, 30⟩] (fun _ l => l) (fun _ l => l)
    id id (fun _ l => List.Perm.refl l) (fun l => List.Perm.refl l)
    (fun _ l => List.Perm.refl l)).1

end ArpScan
